import Mathlib

/-!
Shallow embedding of the task-tracking service's audit/history core
(src/src/controllers/taskController.js, src/src/schemas/taskSchema.js and the
spec-modelled Task Store).  JS runtime values relevant to the tracked task
fields are strings, `null` and `undefined`; machine time is epoch
milliseconds as `Int`.  The embedding fixes the server's local time zone to
UTC (the source calls `new Date(...)`/`toLocaleString` without an explicit
zone), so zone-less date-time strings denote UTC instants.
-/

/-- JavaScript values that occur as tracked task-field values: `undefined`,
`null`, or a string.  This is the value domain of the audit subsystem. -/
inductive JSVal where
  | undef
  | null
  | str (s : String)
deriving DecidableEq, Repr

/-- JS truthiness restricted to this value domain: `undefined`, `null` and the
empty string are falsy, every other string is truthy. -/
def jsTruthy : JSVal → Bool
  | .undef => false
  | .null => false
  | .str s => s != ""

/-- JS nullishness: exactly `undefined` and `null`. -/
def jsNullish : JSVal → Bool
  | .undef => true
  | .null => true
  | .str _ => false

/-- JS `String(v)` / template-literal interpolation of a value. -/
def jsToString : JSVal → String
  | .undef => "undefined"
  | .null => "null"
  | .str s => s

/-- JS nullish coalescing `v ?? fallback`. -/
def jsCoalesce (v fallback : JSVal) : JSVal :=
  if jsNullish v then fallback else v

/-- A JS object as an association list of string keys to values; duplicate
keys may appear, and as in JS object-literal / JSON semantics the last
occurrence of a key wins on property lookup. -/
abbrev JSObj : Type := List (String × JSVal)

/-- Property access `o[k]`: last occurrence wins, absent keys read as
`undefined`. -/
def JSObj.get (o : JSObj) (k : String) : JSVal :=
  match (List.reverse o).find? (fun p => p.1 == k) with
  | none => .undef
  | some p => p.2

/-- The JS `k in o` operator: key presence regardless of value. -/
def JSObj.hasKey (o : JSObj) (k : String) : Bool :=
  o.any (fun p => p.1 == k)

/-! ## Date parsing (`new Date(string)` on ISO 8601 input) and formatting -/

/-- Split a character list on a separator character. -/
def splitOnChar (sep : Char) : List Char → List (List Char)
  | [] => [[]]
  | c :: rest =>
    let r := splitOnChar sep rest
    if c = sep then [] :: r
    else
      match r with
      | h :: t => (c :: h) :: t
      | [] => [[c]]

/-- Interpret a non-empty list of decimal digits as a number; `none` if the
list is empty or contains a non-digit. -/
def digitsVal (cs : List Char) : Option Nat :=
  if cs.isEmpty then none
  else cs.foldlM (fun a c => if c.isDigit then some (a * 10 + (c.toNat - 48)) else none) 0

/-- Gregorian leap-year predicate. -/
def isLeapYear (y : Int) : Bool :=
  y % 4 == 0 && (y % 100 != 0 || y % 400 == 0)

/-- Number of days in a month of a given year. -/
def daysInMonth (y : Int) (m : Nat) : Nat :=
  if m == 2 then (if isLeapYear y then 29 else 28)
  else if m == 4 || m == 6 || m == 9 || m == 11 then 30
  else 31

/-- Days from the civil epoch 1970-01-01 to a Gregorian date (the standard
era/year-of-era computation, floor division throughout). -/
def daysFromCivil (y : Int) (m d : Nat) : Int :=
  let yAdj : Int := if m ≤ 2 then y - 1 else y
  let era := Int.fdiv yAdj 400
  let yoe := yAdj - era * 400
  let mp : Int := if m > 2 then (m : Int) - 3 else (m : Int) + 9
  let doy := Int.fdiv (153 * mp + 2) 5 + (d : Int) - 1
  let doe := yoe * 365 + Int.fdiv yoe 4 - Int.fdiv yoe 100 + doy
  era * 146097 + doe - 719468

/-- Inverse of `daysFromCivil`: the Gregorian date of a day count relative to
1970-01-01. -/
def civilFromDays (z : Int) : Int × Nat × Nat :=
  let z' := z + 719468
  let era := Int.fdiv z' 146097
  let doe := z' - era * 146097
  let yoe := Int.fdiv (doe - Int.fdiv doe 1460 + Int.fdiv doe 36524 - Int.fdiv doe 146096) 365
  let y := yoe + era * 400
  let doy := doe - (365 * yoe + Int.fdiv yoe 4 - Int.fdiv yoe 100)
  let mp := Int.fdiv (5 * doy + 2) 153
  let d := doy - Int.fdiv (153 * mp + 2) 5 + 1
  let m := if mp < 10 then mp + 3 else mp - 9
  ((if m ≤ 2 then y + 1 else y), m.toNat, d.toNat)

/-- Parse the calendar part `YYYY(-MM(-DD)?)?` of an ISO date string. -/
def parseDatePart (cs : List Char) : Option (Int × Nat × Nat) :=
  match splitOnChar '-' cs with
  | [ys] =>
    if ys.length == 4 then (digitsVal ys).map (fun y => ((y : Int), 1, 1)) else none
  | [ys, ms] =>
    if ys.length == 4 && ms.length == 2 then
      match digitsVal ys, digitsVal ms with
      | some y, some m => if 1 ≤ m ∧ m ≤ 12 then some ((y : Int), m, 1) else none
      | _, _ => none
    else none
  | [ys, ms, ds] =>
    if ys.length == 4 && ms.length == 2 && ds.length == 2 then
      match digitsVal ys, digitsVal ms, digitsVal ds with
      | some y, some m, some d =>
        if 1 ≤ m ∧ m ≤ 12 ∧ 1 ≤ d ∧ d ≤ daysInMonth (y : Int) m then some ((y : Int), m, d)
        else none
      | _, _, _ => none
    else none
  | _ => none

/-- Parse a millisecond fraction of 1 to 3 digits (extra digits truncated by
taking the first three, as engines do). -/
def parseFraction (cs : List Char) : Option Nat :=
  if cs.isEmpty || !cs.all Char.isDigit then none
  else
    let first3 := cs.take 3
    (digitsVal first3).map (fun n =>
      if first3.length == 1 then n * 100
      else if first3.length == 2 then n * 10
      else n)

/-- Parse the clock part `HH:MM(:SS(.sss)?)?`, yielding milliseconds since
midnight. -/
def parseTimeOfDay (cs : List Char) : Option Nat :=
  match splitOnChar ':' cs with
  | [hs, ms] =>
    if hs.length == 2 && ms.length == 2 then
      match digitsVal hs, digitsVal ms with
      | some h, some m =>
        if h ≤ 23 ∧ m ≤ 59 then some (h * 3600000 + m * 60000) else none
      | _, _ => none
    else none
  | [hs, ms, ss] =>
    if hs.length == 2 && ms.length == 2 then
      match digitsVal hs, digitsVal ms with
      | some h, some m =>
        if h ≤ 23 ∧ m ≤ 59 then
          match splitOnChar '.' ss with
          | [sec] =>
            if sec.length == 2 then
              match digitsVal sec with
              | some s => if s ≤ 59 then some (h * 3600000 + m * 60000 + s * 1000) else none
              | none => none
            else none
          | [sec, frac] =>
            if sec.length == 2 then
              match digitsVal sec, parseFraction frac with
              | some s, some ms' =>
                if s ≤ 59 then some (h * 3600000 + m * 60000 + s * 1000 + ms') else none
              | _, _ => none
            else none
          | _ => none
        else none
      | _, _ => none
    else none
  | _ => none

/-- Parse a `±HH:MM` zone offset into signed minutes. -/
def parseZoneOffset (sign : Char) (cs : List Char) : Option Int :=
  match splitOnChar ':' cs with
  | [hs, ms] =>
    if hs.length == 2 && ms.length == 2 then
      match digitsVal hs, digitsVal ms with
      | some h, some m =>
        if h ≤ 23 ∧ m ≤ 59 then
          let total : Int := (h : Int) * 60 + (m : Int)
          if sign = '+' then some total else some (-total)
        else none
      | _, _ => none
    else none
  | _ => none

/-- Split the time portion of an ISO string into clock part and zone-offset
minutes.  A trailing `Z` means UTC; a `±HH:MM` suffix is an explicit offset;
no suffix means local time, which this embedding fixes to UTC. -/
def parseTimeWithZone (cs : List Char) : Option (Nat × Int) :=
  match cs.getLast? with
  | some 'Z' => (parseTimeOfDay (cs.dropLast)).map (fun t => (t, 0))
  | _ =>
    let before := cs.takeWhile (fun c => c ≠ '+' ∧ c ≠ '-')
    let after := cs.dropWhile (fun c => c ≠ '+' ∧ c ≠ '-')
    match after with
    | [] => (parseTimeOfDay cs).map (fun t => (t, 0))
    | sign :: offsetChars =>
      match parseTimeOfDay before, parseZoneOffset sign offsetChars with
      | some t, some off => some (t, off)
      | _, _ => none

/-- The embedding of `new Date(s).getTime()` on the ISO 8601 subset: `none`
models an Invalid Date (`NaN`), `some ms` the epoch-millisecond value. -/
def jsDateParse (s : String) : Option Int :=
  match splitOnChar 'T' s.data with
  | [d] => (parseDatePart d).map (fun p => daysFromCivil p.1 p.2.1 p.2.2 * 86400000)
  | [d, t] =>
    match parseDatePart d, parseTimeWithZone t with
    | some p, some tz =>
      some (daysFromCivil p.1 p.2.1 p.2.2 * 86400000 + (tz.1 : Int) - tz.2 * 60000)
    | _, _ => none
  | _ => none

/-- `new Date(v).getTime()` on a task-field value: `new Date(null)` is the
epoch, `new Date(undefined)` is Invalid Date. -/
def jsNewDate : JSVal → Option Int
  | .undef => none
  | .null => some 0
  | .str s => jsDateParse s

/-- The JS relational comparison `date < now` where `date` may be an Invalid
Date: comparisons against `NaN` are false. -/
def jsDateLt (d : Option Int) (now : Int) : Bool :=
  match d with
  | some t => t < now
  | none => false

/-- Two-digit zero padding. -/
def pad2 (n : Nat) : String :=
  if n < 10 then "0" ++ toString n else toString n

/-- Three-digit zero padding. -/
def pad3 (n : Nat) : String :=
  if n < 10 then "00" ++ toString n else if n < 100 then "0" ++ toString n else toString n

/-- Abbreviated month names of the `en-GB` locale (CLDR: September renders
as `Sept`). -/
def monthShortEnGB : List String :=
  ["Jan", "Feb", "Mar", "Apr", "May", "Jun", "Jul", "Aug", "Sept", "Oct", "Nov", "Dec"]

/-- `toLocaleString('en-GB', { day: 2-digit, month: short, year: numeric,
hour: 2-digit, minute: 2-digit, hour12: false })` of an epoch-millisecond
instant, with the host zone fixed to UTC. -/
def formatEnGB (ms : Int) : String :=
  let days := Int.fdiv ms 86400000
  let rem := (ms - days * 86400000).toNat
  let ymd := civilFromDays days
  let hh := rem / 3600000
  let mm := rem % 3600000 / 60000
  pad2 ymd.2.2 ++ " " ++ (monthShortEnGB.getD (ymd.2.1 - 1) "") ++ " " ++ toString ymd.1
    ++ ", " ++ pad2 hh ++ ":" ++ pad2 mm

/-- `Date.prototype.toISOString` of an epoch-millisecond instant. -/
def toISOString (ms : Int) : String :=
  let days := Int.fdiv ms 86400000
  let rem := (ms - days * 86400000).toNat
  let ymd := civilFromDays days
  let y := ymd.1
  let yStr := if y < 10 then "000" ++ toString y
    else if y < 100 then "00" ++ toString y
    else if y < 1000 then "0" ++ toString y
    else toString y
  yStr ++ "-" ++ pad2 ymd.2.1 ++ "-" ++ pad2 ymd.2.2 ++ "T"
    ++ pad2 (rem / 3600000) ++ ":" ++ pad2 (rem % 3600000 / 60000) ++ ":"
    ++ pad2 (rem % 60000 / 1000) ++ "." ++ pad3 (rem % 1000) ++ "Z"

/-! ## Field Comparator Registry (`AUDIT_CONFIG`) -/

/-- Lowercase an ASCII letter, as `toLowerCase` does on the enum tokens. -/
def jsCharLower (c : Char) : Char :=
  if 65 ≤ c.toNat ∧ c.toNat ≤ 90 then Char.ofNat (c.toNat + 32) else c

/-- Uppercase an ASCII letter, as `toUpperCase` does on the enum tokens. -/
def jsCharUpper (c : Char) : Char :=
  if 97 ≤ c.toNat ∧ c.toNat ≤ 122 then Char.ofNat (c.toNat - 32) else c

/-- The regex word-character class used by the word boundary in the status
formatter. -/
def isWordCharJS (c : Char) : Bool :=
  c.isAlpha || c.isDigit || c = '_'

/-- Uppercase every word character that sits at a word boundary, i.e. the
replacement pass of the status formatter; the flag records whether the
previous character was a word character. -/
def upperAtBoundaries : Bool → List Char → List Char
  | _, [] => []
  | prevWord, c :: rest =>
    (if isWordCharJS c && !prevWord then jsCharUpper c else c)
      :: upperAtBoundaries (isWordCharJS c) rest

/-- `s.replace(underscores, space).toLowerCase().replace(word boundaries,
uppercase)`: renders an enum token such as IN_PROGRESS in title case. -/
def statusTitleCase (s : String) : String :=
  ⟨upperAtBoundaries false ((s.data.map (fun c => if c = '_' then ' ' else c)).map jsCharLower)⟩

/-- JS `s.toUpperCase()` on the value domain of the status comparator. -/
def jsToUpperCase (s : String) : String :=
  ⟨s.data.map jsCharUpper⟩

/-- The status formatter of the registry: a truthy value (a non-empty
string in this domain) is rendered in title case with spaces, a falsy value
is returned as is. -/
def statusFormat : JSVal → JSVal
  | .str s => if s == "" then .str s else .str (statusTitleCase s)
  | v => v

/-- The status equality predicate: `String(a).toUpperCase() ===
String(b).toUpperCase()`. -/
def statusIsEqual (a b : JSVal) : Bool :=
  jsToUpperCase (jsToString a) == jsToUpperCase (jsToString b)

/-- The due-date equality predicate: both falsy means no change, exactly one
falsy means change, otherwise compare the parsed epoch milliseconds; an
Invalid Date (`NaN`) compares unequal to everything, itself included. -/
def dueDateIsEqual (a b : JSVal) : Bool :=
  if !jsTruthy a && !jsTruthy b then true
  else if !jsTruthy a || !jsTruthy b then false
  else
    match jsNewDate a, jsNewDate b with
    | some x, some y => x == y
    | _, _ => false

/-- The due-date formatter: falsy renders as the empty string, otherwise as
the `en-GB` day/short-month/year 24-hour rendering of the parsed instant
(`Invalid Date` when the value does not parse). -/
def dueDateFormat (v : JSVal) : JSVal :=
  if !jsTruthy v then .str ""
  else
    match jsNewDate v with
    | some ms => .str (formatEnGB ms)
    | none => .str "Invalid Date"

/-- One registry entry: a label and optional formatter and equality
strategies. -/
structure FieldConfig where
  label : String
  format : Option (JSVal → JSVal)
  isEqual : Option (JSVal → JSVal → Bool)

/-- The Field Comparator Registry, in its declared key order. -/
def AUDIT_CONFIG : List (String × FieldConfig) :=
  [ ("title", ⟨"Title", none, none⟩),
    ("description", ⟨"Description", none, none⟩),
    ("status", ⟨"Status", some statusFormat, some statusIsEqual⟩),
    ("due_date", ⟨"Due date", some dueDateFormat, some dueDateIsEqual⟩) ]

/-- The registry's tracked field names in declared order. -/
def AUDIT_KEYS : List String :=
  ["title", "description", "status", "due_date"]

/-! ## Change-Log Generator -/

/-- Render one side of an audit message: apply the field's formatter when
there is one, otherwise nullish-coalesce the raw value to the empty
string. -/
def fieldRender (cfg : FieldConfig) (v : JSVal) : JSVal :=
  match cfg.format with
  | some f => f v
  | none => jsCoalesce v (.str "")

/-- Compare one field's old and new values with the field's equality
strategy (strict equality when none) and produce the change description
when they differ. -/
def describeChange (cfg : FieldConfig) (oldVal newVal : JSVal) : Option String :=
  let isSame :=
    match cfg.isEqual with
    | some eq => eq oldVal newVal
    | none => oldVal == newVal
  if isSame then none
  else
    some (cfg.label ++ " changed from '" ++ jsToString (fieldRender cfg oldVal)
      ++ "' to '" ++ jsToString (fieldRender cfg newVal) ++ "'")

/-- `generateChangeLog(original, incoming)`: walk the registry in declared
order, skip fields absent from the incoming payload, and collect the
descriptions of the fields that changed. -/
def generateChangeLog (original incoming : JSObj) : List String :=
  AUDIT_CONFIG.foldl
    (fun changes kc =>
      if incoming.hasKey kc.1 then
        match describeChange kc.2 (original.get kc.1) (incoming.get kc.1) with
        | some d => changes ++ [d]
        | none => changes
      else changes)
    []

/-- The contribution of a single registry field to the change log. -/
def auditEntry (original incoming : JSObj) (k : String) : Option String :=
  match AUDIT_CONFIG.find? (fun kc => kc.1 == k) with
  | some kc => if incoming.hasKey k then describeChange kc.2 (original.get k) (incoming.get k) else none
  | none => none

/-! ### Throwing-semantics variant

The JS evaluation of the generator can in principle throw only in one
place: the status formatter calls the method `replace` on its argument,
which throws a TypeError if the receiver is nullish.  The variant below
makes that exception channel explicit, so that totality of the generator is
a statement rather than a typing accident. -/

/-- Method-call receiver coercion: reading a method off `undefined` or
`null` throws a TypeError. -/
def jsMethodReceiver : JSVal → Except String String
  | .str s => .ok s
  | .undef => .error "TypeError: cannot read properties of undefined"
  | .null => .error "TypeError: cannot read properties of null"

/-- The status formatter with the JS exception channel explicit: the
truthiness guard decides whether the method chain on the value runs. -/
def statusFormatE (v : JSVal) : Except String JSVal :=
  if jsTruthy v then (jsMethodReceiver v).map (fun s => .str (statusTitleCase s))
  else .ok v

/-- A registry entry whose formatter carries the exception channel. -/
structure FieldConfigE where
  label : String
  format : Option (JSVal → Except String JSVal)
  isEqual : Option (JSVal → JSVal → Bool)

/-- The registry with explicit exception channels; only the status formatter
differs from a pure function. -/
def AUDIT_CONFIG_E : List (String × FieldConfigE) :=
  [ ("title", ⟨"Title", none, none⟩),
    ("description", ⟨"Description", none, none⟩),
    ("status", ⟨"Status", some statusFormatE, some statusIsEqual⟩),
    ("due_date", ⟨"Due date", some (fun v => .ok (dueDateFormat v)), some dueDateIsEqual⟩) ]

/-- Render one side of an audit message under the throwing semantics. -/
def fieldRenderE (cfg : FieldConfigE) (v : JSVal) : Except String JSVal :=
  match cfg.format with
  | some f => f v
  | none => .ok (jsCoalesce v (.str ""))

/-- Field comparison and description under the throwing semantics. -/
def describeChangeE (cfg : FieldConfigE) (oldVal newVal : JSVal) : Except String (Option String) :=
  let isSame :=
    match cfg.isEqual with
    | some eq => eq oldVal newVal
    | none => oldVal == newVal
  if isSame then .ok none
  else
    match fieldRenderE cfg oldVal, fieldRenderE cfg newVal with
    | .ok f, .ok t =>
      .ok (some (cfg.label ++ " changed from '" ++ jsToString f ++ "' to '" ++ jsToString t ++ "'"))
    | .error e, _ => .error e
    | _, .error e => .error e

/-- The Change-Log Generator under the throwing semantics. -/
def generateChangeLogE (original incoming : JSObj) : Except String (List String) :=
  AUDIT_CONFIG_E.foldlM
    (fun changes kc =>
      if incoming.hasKey kc.1 then
        (describeChangeE kc.2 (original.get kc.1) (incoming.get kc.1)).map
          (fun d? =>
            match d? with
            | some d => changes ++ [d]
            | none => changes)
      else .ok changes)
    []

/-! ## Validation Layer (the zod `taskSchema`) -/

/-- The JS whitespace class `\s` (the members relevant to this domain). -/
def jsWhitespaceChar (c : Char) : Bool :=
  c = ' ' || c = '\t' || c = '\n' || c = '\r'
    || c.toNat == 11 || c.toNat == 12 || c.toNat == 160 || c.toNat == 0xFEFF

/-- The Unicode letter class `p{L}` of the title/description regexes,
modelled by the ASCII letters together with the Latin-1 letter block
(accented letters such as those the tests exercise); the full Unicode
tables are out of scope of the embedding. -/
def isUnicodeLetter (c : Char) : Bool :=
  c.isAlpha || (0xC0 ≤ c.toNat && c.toNat ≤ 0xFF && c.toNat != 0xD7 && c.toNat != 0xF7)

/-- The character whitelist of TITLE_REGEX: letters, numbers, whitespace and
the listed punctuation; angle brackets are not in the class. -/
def allowedTitleChar (c : Char) : Bool :=
  isUnicodeLetter c || c.isDigit || jsWhitespaceChar c
    || c = '.' || c = ',' || c = ':' || c = ';' || c = '_' || c = '-'
    || c = '(' || c = ')' || c = '\'' || c = '"' || c = '?' || c = '!'
    || c = '£' || c = '$' || c = '%' || c = '&'

/-- The character whitelist of DESC_REGEX: the title whitelist plus line
breaks. -/
def allowedDescChar (c : Char) : Bool :=
  allowedTitleChar c || c = '\n' || c = '\r'

/-- Whether a string matches an anchored one-or-more character-class regex
with the given class: non-empty and every character in the class. -/
def matchesCharClass (cls : Char → Bool) (s : String) : Bool :=
  !s.data.isEmpty && s.data.all cls

/-- The title field's issues under `z.string().min(1).max(100).regex(...)`;
all string checks run and their failures accumulate. -/
def titleIssues : JSVal → List String
  | .str s =>
    (if s.length < 1 then ["Title is required"] else [])
      ++ (if 100 < s.length then ["Title must be 100 characters or less"] else [])
      ++ (if matchesCharClass allowedTitleChar s then []
          else ["Title contains invalid characters (check for special symbols)"])
  | .undef => ["Required"]
  | .null => ["Expected string, received null"]

/-- The description field's issues under
`z.string().max(2000).regex(...).optional().or(z.literal(''))`: absent is
fine, the empty string is accepted by the literal branch of the union, a
non-empty string must satisfy the length and whitelist checks. -/
def descriptionIssues : JSVal → List String
  | .str s =>
    if s == "" then []
    else
      (if 2000 < s.length then ["Description must be 2000 characters or less"] else [])
        ++ (if matchesCharClass allowedDescChar s then []
            else ["Description contains invalid characters"])
  | .undef => []
  | .null => ["Expected string, received null"]

/-- The status field's issues under the enum schema with a default: absent
falls back to the default, a string must be one of the three enum values. -/
def statusIssues : JSVal → List String
  | .str s =>
    if s == "PENDING" || s == "IN_PROGRESS" || s == "COMPLETED" then []
    else ["Invalid enum value"]
  | .undef => []
  | .null => ["Expected enum value, received null"]

/-- The due-date field's issues under `z.string().min(1).refine(assertUTC)`:
the refinement (assertUTC accepts exactly strings ending in Z, without
checking parseability) runs only when the base string schema passes. -/
def dueDateIssues : JSVal → List String
  | .str s =>
    if s.length < 1 then ["Due date is required"]
    else if s.data.getLast? == some 'Z' then []
    else ["Due date must be a valid ISO string"]
  | .undef => ["Required"]
  | .null => ["Expected string, received null"]

/-- A field-path validation error as reported by zod's flattened errors. -/
structure FieldError where
  path : String
  message : String
deriving DecidableEq, Repr

/-- The issues of the full create schema over a request body, in field
declaration order, each tagged with its field path. -/
def createIssues (body : JSObj) : List FieldError :=
  (titleIssues (body.get "title")).map (fun m => ⟨"title", m⟩)
    ++ (descriptionIssues (body.get "description")).map (fun m => ⟨"description", m⟩)
    ++ (statusIssues (body.get "status")).map (fun m => ⟨"status", m⟩)
    ++ (dueDateIssues (body.get "due_date")).map (fun m => ⟨"due_date", m⟩)

/-- `taskSchema.parse(body)`: reject when any field has issues, otherwise
return the validated data; unknown keys are stripped, the status default
is applied, and an absent description stays absent. -/
def parseCreateBody (body : JSObj) : Except (List FieldError) JSObj :=
  let errs := createIssues body
  if errs.isEmpty then
    .ok ([("title", body.get "title")]
      ++ (if body.get "description" == .undef then [] else [("description", body.get "description")])
      ++ [("status", if body.get "status" == .undef then .str "PENDING" else body.get "status")]
      ++ [("due_date", body.get "due_date")])
  else .error errs

/-- The issues of `taskSchema.partial()` over a request body: each field is
optional, and a present field is checked by its field schema. -/
def updateIssues (body : JSObj) : List FieldError :=
  (if body.get "title" == .undef then []
   else (titleIssues (body.get "title")).map (fun m => ⟨"title", m⟩))
    ++ (if body.get "description" == .undef then []
        else (descriptionIssues (body.get "description")).map (fun m => ⟨"description", m⟩))
    ++ (if body.get "status" == .undef then []
        else (statusIssues (body.get "status")).map (fun m => ⟨"status", m⟩))
    ++ (if body.get "due_date" == .undef then []
        else (dueDateIssues (body.get "due_date")).map (fun m => ⟨"due_date", m⟩))

/-- `taskSchema.partial().parse(body)`: validate the present fields and
return exactly those; no defaults fire on a partial parse.  The controller's
subsequent destructuring drops `created_at`/`updated_at`/`deleted_at`, which
the schema has already stripped, so the result is the `allowedData` object
of the source. -/
def parseUpdateBody (body : JSObj) : Except (List FieldError) JSObj :=
  let errs := updateIssues body
  if errs.isEmpty then
    .ok ((if body.get "title" == .undef then [] else [("title", body.get "title")])
      ++ (if body.get "description" == .undef then [] else [("description", body.get "description")])
      ++ (if body.get "status" == .undef then [] else [("status", body.get "status")])
      ++ (if body.get "due_date" == .undef then [] else [("due_date", body.get "due_date")]))
  else .error errs

/-! ## Task Store and controller endpoints -/

/-- The persistent state: the `tasks` rows (id and record) and the
`task_history` rows (task id and change summary), both in insertion
order. -/
structure DB where
  tasks : List (Nat × JSObj)
  history : List (Nat × String)
deriving DecidableEq, Repr

/-- Modelled from the spec: `src/models/taskModel.js` is not among the
provided sources.  Per spec 4.3, `findById` returns the task only if
`deleted_at IS NULL`; soft-deleted tasks are invisible. -/
def findById (db : DB) (id : Nat) : Option JSObj :=
  match db.tasks.find? (fun p => p.1 == id) with
  | some p => if jsTruthy (p.2.get "deleted_at") then none else some p.2
  | none => none

/-- Modelled from the spec: `src/models/taskModel.js` is not among the
provided sources.  Per spec 4.3, `create` inserts the task row and exactly
one HistoryEntry with summary Task created, atomically. -/
def TaskModel.create (db : DB) (task : JSObj) : DB × Nat :=
  let id := db.tasks.length + 1
  (⟨db.tasks ++ [(id, task)], db.history ++ [(id, "Task created")]⟩, id)

/-- Modelled from the spec: `src/models/taskModel.js` is not among the
provided sources.  Per spec 4.3, `update` replaces the task row and, when
`changeSummary` is non-null, additionally inserts one HistoryEntry with that
summary in the same transaction; a null summary writes no history row. -/
def TaskModel.update (db : DB) (id : Nat) (merged : JSObj) (changeSummary : Option String) : DB :=
  ⟨db.tasks.map (fun p => if p.1 == id then (id, merged) else p),
    match changeSummary with
    | some s => db.history ++ [(id, s)]
    | none => db.history⟩

/-- Outcome of the create endpoint. -/
inductive CreateResult where
  | invalid (errs : List FieldError)
  | pastDue (errs : List FieldError)
  | created (task : JSObj)
deriving DecidableEq, Repr

/-- Outcome of the update endpoint; `ok` carries the merged task and the
change summary handed to the store. -/
inductive UpdateResult where
  | notFound
  | invalid (errs : List FieldError)
  | pastDue (errs : List FieldError)
  | ok (task : JSObj) (changeSummary : Option String)
deriving DecidableEq, Repr

/-- `TaskController.createTask`: validate the body, reject a due date that
parses strictly earlier than the clock (an Invalid Date never compares
lower), then persist with system timestamps.  The clock `now` stands for
every `new Date()` the handler evaluates. -/
def createTaskEndpoint (db : DB) (body : JSObj) (now : Int) : DB × CreateResult :=
  match parseCreateBody body with
  | .error errs => (db, .invalid errs)
  | .ok data =>
    if jsTruthy (data.get "due_date") && jsDateLt (jsNewDate (data.get "due_date")) now then
      (db, .pastDue [⟨"due_date", "Due date must be in the future"⟩])
    else
      let taskData := data ++ [("created_at", .str (toISOString now)), ("updated_at", .str (toISOString now))]
      ((TaskModel.create db taskData).1, .created taskData)

/-- `TaskController.updateTask`: look up the task, validate the partial
body, apply the future-date rule only to a present due date that differs
(by strict string comparison) from the stored one, then diff, join the
changes into a nullable summary and hand the merged record and summary
to the store. -/
def updateTaskEndpoint (db : DB) (id : Nat) (body : JSObj) (now : Int) : DB × UpdateResult :=
  match findById db id with
  | none => (db, .notFound)
  | some existing =>
    match parseUpdateBody body with
    | .error errs => (db, .invalid errs)
    | .ok allowed =>
      if jsTruthy (allowed.get "due_date")
          && !(allowed.get "due_date" == existing.get "due_date")
          && jsDateLt (jsNewDate (allowed.get "due_date")) now then
        (db, .pastDue [⟨"due_date", "Due date must be in the future"⟩])
      else
        let changes := generateChangeLog existing allowed
        let changeSummary := if changes.isEmpty then none else some (String.intercalate "\n" changes)
        let merged := existing ++ allowed ++ [("updated_at", .str (toISOString now))]
        (TaskModel.update db id merged changeSummary, .ok merged changeSummary)

/-! ## Helper lemmas -/

/-- Folding the registry with description pushes is filtering the registry
through the per-field comparison, for any accumulator. -/
theorem changeLog_foldl_append (o p : JSObj) (l : List (String × FieldConfig))
    (acc : List String) :
    l.foldl
      (fun changes kc =>
        if p.hasKey kc.1 then
          match describeChange kc.2 (o.get kc.1) (p.get kc.1) with
          | some d => changes ++ [d]
          | none => changes
        else changes)
      acc
      = acc ++ l.filterMap
          (fun kc =>
            if p.hasKey kc.1 then describeChange kc.2 (o.get kc.1) (p.get kc.1) else none) := by
  induction l generalizing acc with
  | nil => simp
  | cons hd tl ih =>
    simp only [List.foldl_cons, List.filterMap_cons]
    by_cases h : p.hasKey hd.1
    · simp only [h, if_true]
      cases hdc : describeChange hd.2 (o.get hd.1) (p.get hd.1) with
      | none => simp [ih]
      | some d => simp [ih]
    · simp [h, ih]

/-- The change log is the registry's key list filtered through the
per-field audit entries, in declared key order. -/
theorem generateChangeLog_filterMap (o p : JSObj) :
    generateChangeLog o p = AUDIT_KEYS.filterMap (auditEntry o p) := by
  rw [generateChangeLog, changeLog_foldl_append]
  simp [AUDIT_CONFIG, AUDIT_KEYS, auditEntry, List.filterMap]

/-- The empty string is not a parseable date. -/
theorem jsDateParse_empty : jsDateParse "" = none := by decide

/-- A string that parses as a date is non-empty. -/
theorem jsDateParse_ne_empty {s : String} {t : Int} (h : jsDateParse s = some t) : s ≠ "" := by
  intro hs
  rw [hs, jsDateParse_empty] at h
  exact Option.noConfusion h

/-- A non-empty string is a truthy value. -/
theorem jsTruthy_str_of_ne {s : String} (h : s ≠ "") : jsTruthy (.str s) = true := by
  simp [jsTruthy, h]

/-- A produced description has the rendered sentence shape. -/
theorem describeChange_eq_some {cfg : FieldConfig} {a b : JSVal} {d : String}
    (h : describeChange cfg a b = some d) :
    d = cfg.label ++ " changed from '" ++ jsToString (fieldRender cfg a)
      ++ "' to '" ++ jsToString (fieldRender cfg b) ++ "'" := by
  unfold describeChange at h
  by_cases hs : (match cfg.isEqual with
    | some eq => eq a b
    | none => a == b) = true
  · simp [hs] at h
  · simp [hs] at h
    exact h.symm

/-! ## Claims -/

/-- C2: `generateChangeLog` emits change descriptions in the registry's
fixed field order (title, description, status, due_date), independent of the
key order of the incoming payload, and only for fields present in both the
payload and the registry; as a function it is deterministic.  The first
conjunct gives payload-representation independence: two payloads with the
same key-presence and lookup results on the tracked fields (whatever their
key order or duplicate layout) yield the same sequence.  The second pins the
output to the registry's declared key order. -/
theorem generateChangeLog_order_and_registry :
    (∀ (o p₁ p₂ : JSObj),
      (∀ k ∈ AUDIT_KEYS, p₁.hasKey k = p₂.hasKey k ∧ p₁.get k = p₂.get k) →
      generateChangeLog o p₁ = generateChangeLog o p₂)
    ∧ ∀ (o p : JSObj), generateChangeLog o p = AUDIT_KEYS.filterMap (auditEntry o p) := by
  constructor
  · intro o p₁ p₂ h
    rw [generateChangeLog_filterMap, generateChangeLog_filterMap]
    have ht := h "title" (by decide)
    have hd := h "description" (by decide)
    have hs := h "status" (by decide)
    have hu := h "due_date" (by decide)
    simp only [AUDIT_KEYS, List.filterMap, auditEntry]
    rw [ht.1, ht.2, hd.1, hd.2, hs.1, hs.2, hu.1, hu.2]
  · exact generateChangeLog_filterMap

/-- C2 witness: permuting the payload's keys leaves the change log
unchanged. -/
theorem generateChangeLog_order_and_registry_witness :
    generateChangeLog [("status", JSVal.str "PENDING")]
        [("status", JSVal.str "IN_PROGRESS"), ("title", JSVal.str "B")]
      = generateChangeLog [("status", JSVal.str "PENDING")]
        [("title", JSVal.str "B"), ("status", JSVal.str "IN_PROGRESS")] :=
  generateChangeLog_order_and_registry.1 _ _ _ (by decide)

/-- C10: a non-empty unparseable due_date diffed against the identical
string is always reported as a change, because `NaN === NaN` is false in
the instant comparison; both sides render as Invalid Date. -/
theorem unparseableDue_self_reported (s : String) (o p : JSObj)
    (hs : s ≠ "") (hp : jsDateParse s = none)
    (ho : o.get "due_date" = .str s)
    (hk : p.hasKey "due_date" = true) (hv : p.get "due_date" = .str s) :
    "Due date changed from 'Invalid Date' to 'Invalid Date'" ∈ generateChangeLog o p := by
  rw [generateChangeLog_filterMap]
  apply List.mem_filterMap.mpr
  refine ⟨"due_date", by decide, ?_⟩
  have htr := jsTruthy_str_of_ne hs
  simp [auditEntry, AUDIT_CONFIG, hk, ho, hv, describeChange, dueDateIsEqual, htr,
    jsNewDate, hp, fieldRender, dueDateFormat, jsToString]

/-- C10 witness: an unchanged unparseable due_date on a concrete pair. -/
theorem unparseableDue_self_reported_witness :
    "Due date changed from 'Invalid Date' to 'Invalid Date'"
      ∈ generateChangeLog [("due_date", JSVal.str "not-a-date")]
          [("due_date", JSVal.str "not-a-date")] :=
  unparseableDue_self_reported "not-a-date" _ _ (by decide) (by decide) (by decide)
    (by decide) (by decide)

/-- C3 counterexample: the due-date equality predicate tests falsiness, not
nullishness.  With `null` on one side and the empty string on the other,
exactly one side is nullish, yet the predicate returns true and no change
description is emitted — refuting the claim that a change is reported
whenever exactly one side is nullish. -/
theorem dueDate_nullish_claim_counterexample :
    jsNullish JSVal.null = true
    ∧ jsNullish (JSVal.str "") = false
    ∧ dueDateIsEqual JSVal.null (JSVal.str "") = true
    ∧ generateChangeLog [("due_date", JSVal.null)] [("due_date", JSVal.str "")] = [] := by
  decide

/-- C3 amended: two due_date strings parsing to the same epoch-millisecond
instant compare equal and produce no change description; when exactly one
side is falsy (nullish or the empty string) and the other truthy, the
predicate returns false and a change is reported; when both sides are
falsy, no change is reported. -/
theorem dueDate_instant_equality_amended :
    (∀ (a b : String) (t : Int), jsDateParse a = some t → jsDateParse b = some t →
      dueDateIsEqual (.str a) (.str b) = true
      ∧ generateChangeLog [("due_date", .str a)] [("due_date", .str b)] = [])
    ∧ (∀ u v : JSVal, jsTruthy u ≠ jsTruthy v →
      dueDateIsEqual u v = false
      ∧ generateChangeLog [("due_date", u)] [("due_date", v)]
          = ["Due date changed from '" ++ jsToString (dueDateFormat u) ++ "' to '"
              ++ jsToString (dueDateFormat v) ++ "'"])
    ∧ (∀ u v : JSVal, jsTruthy u = false → jsTruthy v = false →
      dueDateIsEqual u v = true
      ∧ generateChangeLog [("due_date", u)] [("due_date", v)] = []) := by
  refine ⟨?_, ?_, ?_⟩
  · intro a b t ha hb
    have hta := jsTruthy_str_of_ne (jsDateParse_ne_empty ha)
    have htb := jsTruthy_str_of_ne (jsDateParse_ne_empty hb)
    have heq : dueDateIsEqual (.str a) (.str b) = true := by
      simp [dueDateIsEqual, hta, htb, jsNewDate, ha, hb]
    refine ⟨heq, ?_⟩
    rw [generateChangeLog_filterMap]
    simp [AUDIT_KEYS, auditEntry, AUDIT_CONFIG, JSObj.hasKey, JSObj.get, describeChange, heq]
  · intro u v huv
    have heq : dueDateIsEqual u v = false := by
      cases hu : jsTruthy u <;> cases hv : jsTruthy v <;>
        simp [hu, hv] at huv ⊢ <;> simp [dueDateIsEqual, hu, hv]
    refine ⟨heq, ?_⟩
    rw [generateChangeLog_filterMap]
    simp [AUDIT_KEYS, auditEntry, AUDIT_CONFIG, JSObj.hasKey, JSObj.get, describeChange, heq,
      fieldRender]
  · intro u v hu hv
    have heq : dueDateIsEqual u v = true := by
      simp [dueDateIsEqual, hu, hv]
    refine ⟨heq, ?_⟩
    rw [generateChangeLog_filterMap]
    simp [AUDIT_KEYS, auditEntry, AUDIT_CONFIG, JSObj.hasKey, JSObj.get, describeChange, heq]

/-- C3 witness: two differently formatted representations of the same
instant are not a change, and a null-to-date transition is one. -/
theorem dueDate_instant_equality_amended_witness :
    (dueDateIsEqual (.str "2025-01-01T00:00:00Z") (.str "2025-01-01T00:00Z") = true
      ∧ generateChangeLog [("due_date", JSVal.str "2025-01-01T00:00:00Z")]
          [("due_date", JSVal.str "2025-01-01T00:00Z")] = [])
    ∧ (dueDateIsEqual JSVal.null (.str "2025-01-01T00:00:00Z") = false
      ∧ generateChangeLog [("due_date", JSVal.null)]
          [("due_date", JSVal.str "2025-01-01T00:00:00Z")]
          = ["Due date changed from '" ++ jsToString (dueDateFormat JSVal.null) ++ "' to '"
              ++ jsToString (dueDateFormat (.str "2025-01-01T00:00:00Z")) ++ "'"]) :=
  ⟨dueDate_instant_equality_amended.1 _ _ 1735689600000 (by decide) (by decide),
    dueDate_instant_equality_amended.2.1 _ _ (by decide)⟩

/-- C7: the status equality predicate is exactly case-insensitive string
equality (uppercasing both sides), and a status change description is
emitted exactly when the two values differ case-insensitively. -/
theorem status_case_insensitive_diff (s t : String) :
    (statusIsEqual (.str s) (.str t) = true ↔ jsToUpperCase s = jsToUpperCase t)
    ∧ (generateChangeLog [("status", .str s)] [("status", .str t)] = []
        ↔ jsToUpperCase s = jsToUpperCase t) := by
  have h1 : statusIsEqual (.str s) (.str t) = true ↔ jsToUpperCase s = jsToUpperCase t := by
    simp [statusIsEqual, jsToString]
  refine ⟨h1, ?_⟩
  rw [generateChangeLog_filterMap]
  by_cases h : jsToUpperCase s = jsToUpperCase t
  · have heq := h1.mpr h
    simp [AUDIT_KEYS, auditEntry, AUDIT_CONFIG, JSObj.hasKey, JSObj.get, describeChange, heq, h]
  · have heq : statusIsEqual (.str s) (.str t) = false := by
      cases hb : statusIsEqual (.str s) (.str t)
      · rfl
      · exact absurd (h1.mp hb) h
    simp [AUDIT_KEYS, auditEntry, AUDIT_CONFIG, JSObj.hasKey, JSObj.get, describeChange, heq, h]

/-- C7 witness: `pending` and `PENDING` are not a status change, while
`PENDING` and `IN_PROGRESS` are. -/
theorem status_case_insensitive_diff_witness :
    statusIsEqual (.str "pending") (.str "PENDING") = true
    ∧ generateChangeLog [("status", JSVal.str "pending")] [("status", JSVal.str "PENDING")] = []
    ∧ ¬ generateChangeLog [("status", JSVal.str "PENDING")]
        [("status", JSVal.str "IN_PROGRESS")] = [] :=
  ⟨(status_case_insensitive_diff "pending" "PENDING").1.mpr (by decide),
    (status_case_insensitive_diff "pending" "PENDING").2.mpr (by decide),
    fun h => by
      have := (status_case_insensitive_diff "PENDING" "IN_PROGRESS").2.mp h
      exact absurd this (by decide)⟩

/-- C6: every emitted change description is exactly the sentence
label changed from quoted formatted old to quoted formatted new, with the
label taken from the registry; status enum tokens render in title case
with spaces, due dates render as day, short month, year and 24-hour time,
and fields without a formatter render their values unchanged with nullish
values rendered as the empty string. -/
theorem changeLog_description_format :
    (∀ (o p : JSObj) (d : String), d ∈ generateChangeLog o p →
      ∃ kc ∈ AUDIT_CONFIG, p.hasKey kc.1 = true
        ∧ d = kc.2.label ++ " changed from '" ++ jsToString (fieldRender kc.2 (o.get kc.1))
            ++ "' to '" ++ jsToString (fieldRender kc.2 (p.get kc.1)) ++ "'")
    ∧ statusFormat (.str "PENDING") = .str "Pending"
    ∧ statusFormat (.str "IN_PROGRESS") = .str "In Progress"
    ∧ statusFormat (.str "COMPLETED") = .str "Completed"
    ∧ dueDateFormat (.str "2025-03-15T14:30:00Z") = .str "15 Mar 2025, 14:30"
    ∧ (∀ v : JSVal, jsNullish v = true → jsCoalesce v (.str "") = .str "")
    ∧ (∀ s : String, jsCoalesce (.str s) (.str "") = .str s) := by
  refine ⟨?_, by decide, by decide, by decide, by decide, ?_, ?_⟩
  · intro o p d hd
    rw [generateChangeLog_filterMap] at hd
    obtain ⟨k, hk, he⟩ := List.mem_filterMap.mp hd
    have hk' : k = "title" ∨ k = "description" ∨ k = "status" ∨ k = "due_date" := by
      simpa [AUDIT_KEYS] using hk
    rcases hk' with rfl | rfl | rfl | rfl
    · refine ⟨("title", ⟨"Title", none, none⟩), by simp [AUDIT_CONFIG], ?_⟩
      simp only [auditEntry, AUDIT_CONFIG, List.find?] at he
      by_cases hh : p.hasKey "title"
      · simp only [hh, if_true] at he
        exact ⟨hh, describeChange_eq_some (by simpa using he)⟩
      · simp [hh] at he
    · refine ⟨("description", ⟨"Description", none, none⟩), by simp [AUDIT_CONFIG], ?_⟩
      simp only [auditEntry, AUDIT_CONFIG, List.find?] at he
      by_cases hh : p.hasKey "description"
      · simp only [hh, if_true] at he
        exact ⟨hh, describeChange_eq_some (by simpa using he)⟩
      · simp [hh] at he
    · refine ⟨("status", ⟨"Status", some statusFormat, some statusIsEqual⟩),
        by simp [AUDIT_CONFIG], ?_⟩
      simp only [auditEntry, AUDIT_CONFIG, List.find?] at he
      by_cases hh : p.hasKey "status"
      · simp only [hh, if_true] at he
        exact ⟨hh, describeChange_eq_some (by simpa using he)⟩
      · simp [hh] at he
    · refine ⟨("due_date", ⟨"Due date", some dueDateFormat, some dueDateIsEqual⟩),
        by simp [AUDIT_CONFIG], ?_⟩
      simp only [auditEntry, AUDIT_CONFIG, List.find?] at he
      by_cases hh : p.hasKey "due_date"
      · simp only [hh, if_true] at he
        exact ⟨hh, describeChange_eq_some (by simpa using he)⟩
      · simp [hh] at he
  · intro v hv
    simp [jsCoalesce, hv]
  · intro s
    simp [jsCoalesce, jsNullish]

/-- C6 witness: the sentence shape at a concrete status transition. -/
theorem changeLog_description_format_witness :
    ∃ kc ∈ AUDIT_CONFIG,
      JSObj.hasKey [("status", JSVal.str "IN_PROGRESS")] kc.1 = true
      ∧ "Status changed from 'Pending' to 'In Progress'"
          = kc.2.label ++ " changed from '"
            ++ jsToString (fieldRender kc.2 (JSObj.get [("status", JSVal.str "PENDING")] kc.1))
            ++ "' to '"
            ++ jsToString (fieldRender kc.2 (JSObj.get [("status", JSVal.str "IN_PROGRESS")] kc.1))
            ++ "'" :=
  changeLog_description_format.1 [("status", JSVal.str "PENDING")]
    [("status", JSVal.str "IN_PROGRESS")] _ (by decide)


/-- The status formatter's truthiness guard keeps the method chain off
nullish receivers, so the throwing formatter never throws and agrees with
the pure one. -/
theorem statusFormatE_ok (v : JSVal) : statusFormatE v = .ok (statusFormat v) := by
  cases v with
  | undef => simp [statusFormatE, statusFormat, jsTruthy]
  | null => simp [statusFormatE, statusFormat, jsTruthy]
  | str s =>
    by_cases h : s = ""
    · simp [statusFormatE, statusFormat, jsTruthy, h]
    · simp [statusFormatE, statusFormat, jsTruthy, h, jsMethodReceiver, Except.map]

/-- Field comparison under the throwing semantics never throws and agrees
with the pure comparison whenever the formatters agree. -/
theorem describeChangeE_ok (cfgE : FieldConfigE) (cfg : FieldConfig) (a b : JSVal)
    (hl : cfgE.label = cfg.label) (he : cfgE.isEqual = cfg.isEqual)
    (hf : ∀ v, fieldRenderE cfgE v = .ok (fieldRender cfg v)) :
    describeChangeE cfgE a b = .ok (describeChange cfg a b) := by
  simp only [describeChangeE, describeChange, hl, he, hf a, hf b]
  by_cases h : (match cfg.isEqual with
    | some eq => eq a b
    | none => a == b) = true
  · simp [h]
  · simp [h]

/-- Mapping over an ok value. -/
theorem exceptMap_ok {α β : Type} (f : α → β) (x : α) :
    Except.map f (Except.ok x : Except String α) = Except.ok (f x) := rfl

/-- Binding an ok value. -/
theorem exceptBind_ok {α β : Type} (x : α) (f : α → Except String β) :
    (Except.ok x : Except String α) >>= f = f x := rfl

/-- Folding the throwing registry agrees with folding the pure registry
whenever the two registries agree entrywise. -/
theorem changeLogE_foldlM_ok (o i : JSObj) (l : List (String × FieldConfigE))
    (l' : List (String × FieldConfig)) (acc : List String)
    (h : List.Forall₂
      (fun a b => a.1 = b.1 ∧ ∀ x y, describeChangeE a.2 x y = .ok (describeChange b.2 x y))
      l l') :
    List.foldlM
      (fun changes kc =>
        if i.hasKey kc.1 then
          (describeChangeE kc.2 (o.get kc.1) (i.get kc.1)).map
            (fun d? =>
              match d? with
              | some d => changes ++ [d]
              | none => changes)
        else .ok changes) acc l
      = .ok (List.foldl
          (fun changes kc =>
            if i.hasKey kc.1 then
              match describeChange kc.2 (o.get kc.1) (i.get kc.1) with
              | some d => changes ++ [d]
              | none => changes
            else changes) acc l') := by
  induction h generalizing acc with
  | nil => simp [List.foldlM, List.foldl, pure, Except.pure]
  | cons hab hrest ih =>
    rename_i x y xs ys
    rw [List.foldlM_cons, List.foldl_cons]
    rw [hab.1]
    by_cases hk : i.hasKey y.1
    · rw [if_pos hk, if_pos hk, hab.2 (o.get y.1) (i.get y.1)]
      cases hdc : describeChange y.2 (o.get y.1) (i.get y.1) with
      | none =>
        rw [exceptMap_ok, exceptBind_ok]
        exact ih _
      | some d =>
        rw [exceptMap_ok, exceptBind_ok]
        exact ih _
    · rw [if_neg hk, if_neg hk, exceptBind_ok]
      exact ih _

/-- C9: the Change-Log Generator is total over snapshots whose tracked
values are strings, null, undefined or absent: under the explicit JS
exception semantics it always returns ok with the pure result (a list of
strings), and a nullish value on either side of an unformatted field is
rendered as the empty string rather than causing a failure. -/
theorem generateChangeLog_total :
    (∀ o i : JSObj, generateChangeLogE o i = Except.ok (generateChangeLog o i))
    ∧ generateChangeLog [("title", JSVal.null)] [("title", JSVal.str "X")]
        = ["Title changed from '' to 'X'"]
    ∧ generateChangeLog [("description", JSVal.undef)] [("description", JSVal.str "d")]
        = ["Description changed from '' to 'd'"] := by
  refine ⟨?_, by decide, by decide⟩
  intro o i
  rw [generateChangeLogE, generateChangeLog]
  apply changeLogE_foldlM_ok
  refine List.Forall₂.cons ⟨rfl, ?_⟩ (List.Forall₂.cons ⟨rfl, ?_⟩
    (List.Forall₂.cons ⟨rfl, ?_⟩ (List.Forall₂.cons ⟨rfl, ?_⟩ List.Forall₂.nil)))
  · intro x y
    exact describeChangeE_ok _ _ _ _ rfl rfl (fun v => rfl)
  · intro x y
    exact describeChangeE_ok _ _ _ _ rfl rfl (fun v => rfl)
  · intro x y
    exact describeChangeE_ok _ _ _ _ rfl rfl (fun v => by
      simp [fieldRenderE, fieldRender, statusFormatE_ok v])
  · intro x y
    exact describeChangeE_ok _ _ _ _ rfl rfl (fun v => rfl)

/-- C8: validation accepts every title of exactly 100 whitelisted
characters (no title-path error is ever reported for it), and rejects every
title of 101 or more characters and every title containing an angle
bracket, in each case with a validation error whose field path is
title. -/
theorem title_validation_boundaries :
    ∀ (body : JSObj) (s : String), body.get "title" = JSVal.str s →
      ((s.length = 100 ∧ ∀ c ∈ s.data, allowedTitleChar c = true) →
        ∀ errs, parseCreateBody body = Except.error errs → ∀ e ∈ errs, e.path ≠ "title")
      ∧ ((101 ≤ s.length ∨ '<' ∈ s.data ∨ '>' ∈ s.data) →
        ∃ errs, parseCreateBody body = Except.error errs ∧ ∃ e ∈ errs, e.path = "title") := by
  intro body s hb
  constructor
  · rintro ⟨hlen, hchars⟩ errs herr e he
    have hdata : s.data.length = 100 := hlen
    have h0 : titleIssues (JSVal.str s) = [] := by
      have hne : s.data.isEmpty = false := by
        cases hd : s.data with
        | nil => rw [hd] at hdata; simp at hdata
        | cons a l => simp
      have hall : s.data.all allowedTitleChar = true :=
        List.all_eq_true.mpr hchars
      simp [titleIssues, hlen, matchesCharClass, hne, hall]
    by_cases hie : (createIssues body).isEmpty
    · simp [parseCreateBody, hie] at herr
    · simp only [parseCreateBody, hie, Bool.false_eq_true, if_false] at herr
      injection herr with heq
      subst heq
      unfold createIssues at he
      rw [hb, h0] at he
      simp only [List.map_nil, List.nil_append, List.mem_append, or_assoc] at he
      rcases he with h1 | h2 | h3
      · obtain ⟨m, hm, heq⟩ := List.mem_map.mp h1
        rw [← heq]
        simp
      · obtain ⟨m, hm, heq⟩ := List.mem_map.mp h2
        rw [← heq]
        simp
      · obtain ⟨m, hm, heq⟩ := List.mem_map.mp h3
        rw [← heq]
        simp
  · intro hbad
    have hm : ∃ m, m ∈ titleIssues (JSVal.str s) := by
      rcases hbad with h101 | hlt | hgt
      · refine ⟨"Title must be 100 characters or less", ?_⟩
        have : 100 < s.length := h101
        simp [titleIssues, this]
      · have hall : s.data.all allowedTitleChar = false := by
          cases hc : s.data.all allowedTitleChar
          · rfl
          · have := List.all_eq_true.mp hc '<' hlt
            simp [allowedTitleChar, isUnicodeLetter, jsWhitespaceChar] at this
        refine ⟨"Title contains invalid characters (check for special symbols)", ?_⟩
        simp [titleIssues, matchesCharClass, hall]
      · have hall : s.data.all allowedTitleChar = false := by
          cases hc : s.data.all allowedTitleChar
          · rfl
          · have := List.all_eq_true.mp hc '>' hgt
            simp [allowedTitleChar, isUnicodeLetter, jsWhitespaceChar] at this
        refine ⟨"Title contains invalid characters (check for special symbols)", ?_⟩
        simp [titleIssues, matchesCharClass, hall]
    obtain ⟨m, hm⟩ := hm
    have hne : (createIssues body).isEmpty = false := by
      cases hie : (createIssues body).isEmpty
      · rfl
      · exfalso
        have hnil : createIssues body = [] := by
          cases hh : createIssues body
          · rfl
          · rw [hh] at hie
            simp at hie
        unfold createIssues at hnil
        rw [hb] at hnil
        have h1 := (List.append_eq_nil.mp hnil).1
        have h2 := (List.append_eq_nil.mp h1).1
        have hmapnil := (List.append_eq_nil.mp h2).1
        rw [List.map_eq_nil_iff] at hmapnil
        rw [hmapnil] at hm
        exact List.not_mem_nil _ hm
    refine ⟨createIssues body, ?_, ⟨⟨"title", m⟩, ?_, rfl⟩⟩
    · simp [parseCreateBody, hne]
    · unfold createIssues
      rw [hb]
      refine List.mem_append_left _ (List.mem_append_left _ (List.mem_append_left _ ?_))
      exact List.mem_map_of_mem _ hm

/-- C8 witness: a 100-character whitelisted title produces no title error,
and a 101-character title is rejected with a title-path error. -/
theorem title_validation_boundaries_witness :
    (∀ errs,
      parseCreateBody [("title", JSVal.str "aaaaaaaaaaaaaaaaaaaaaaaaaaaaaaaaaaaaaaaaaaaaaaaaaaaaaaaaaaaaaaaaaaaaaaaaaaaaaaaaaaaaaaaaaaaaaaaaaaaa"), ("due_date", JSVal.str "2030-01-01T00:00:00Z")]
          = Except.error errs → ∀ e ∈ errs, e.path ≠ "title")
    ∧ ∃ errs,
        parseCreateBody [("title", JSVal.str "aaaaaaaaaaaaaaaaaaaaaaaaaaaaaaaaaaaaaaaaaaaaaaaaaaaaaaaaaaaaaaaaaaaaaaaaaaaaaaaaaaaaaaaaaaaaaaaaaaaaa"), ("due_date", JSVal.str "2030-01-01T00:00:00Z")]
          = Except.error errs ∧ ∃ e ∈ errs, e.path = "title" :=
  ⟨(title_validation_boundaries _
      "aaaaaaaaaaaaaaaaaaaaaaaaaaaaaaaaaaaaaaaaaaaaaaaaaaaaaaaaaaaaaaaaaaaaaaaaaaaaaaaaaaaaaaaaaaaaaaaaaaaa"
      (by decide)).1 (by decide),
    (title_validation_boundaries _
      "aaaaaaaaaaaaaaaaaaaaaaaaaaaaaaaaaaaaaaaaaaaaaaaaaaaaaaaaaaaaaaaaaaaaaaaaaaaaaaaaaaaaaaaaaaaaaaaaaaaaa"
      (by decide)).2 (by decide)⟩

/-- A successfully validated create body has a non-empty string due_date,
passed through unchanged into the validated data. -/
theorem parseCreateBody_due (body data : JSObj) (h : parseCreateBody body = Except.ok data) :
    (∃ s : String, body.get "due_date" = JSVal.str s ∧ s ≠ "")
    ∧ data.get "due_date" = body.get "due_date" := by
  unfold parseCreateBody at h
  by_cases hie : (createIssues body).isEmpty
  · simp only [hie, if_true] at h
    injection h with hdata
    have hnil : createIssues body = [] := List.isEmpty_iff.mp hie
    unfold createIssues at hnil
    have h1 := (List.append_eq_nil.mp hnil).2
    rw [List.map_eq_nil_iff] at h1
    constructor
    · cases hv : body.get "due_date" with
      | undef => rw [hv] at h1; simp [dueDateIssues] at h1
      | null => rw [hv] at h1; simp [dueDateIssues] at h1
      | str s =>
        refine ⟨s, rfl, ?_⟩
        intro hs
        rw [hv, hs] at h1
        simp [dueDateIssues] at h1
    · rw [← hdata]
      simp [JSObj.get]
  · simp [hie] at h

/-- C4 counterexample: a create request whose due_date parses to exactly
the current instant is not rejected — the task row and its Task created
history row are written — refuting the claim that a due_date equal to the
current instant is rejected with nothing created. -/
theorem createTask_equal_instant_counterexample :
    jsDateParse "2025-01-01T00:00:00Z" = some 1735689600000
    ∧ (createTaskEndpoint ⟨[], []⟩
        [("title", JSVal.str "Report"), ("due_date", JSVal.str "2025-01-01T00:00:00Z")]
        1735689600000).2
      = CreateResult.created
          [("title", JSVal.str "Report"), ("status", JSVal.str "PENDING"),
            ("due_date", JSVal.str "2025-01-01T00:00:00Z"),
            ("created_at", JSVal.str "2025-01-01T00:00:00.000Z"),
            ("updated_at", JSVal.str "2025-01-01T00:00:00.000Z")]
    ∧ (createTaskEndpoint ⟨[], []⟩
        [("title", JSVal.str "Report"), ("due_date", JSVal.str "2025-01-01T00:00:00Z")]
        1735689600000).1.tasks.length = 1
    ∧ (createTaskEndpoint ⟨[], []⟩
        [("title", JSVal.str "Report"), ("due_date", JSVal.str "2025-01-01T00:00:00Z")]
        1735689600000).1.history = [(1, "Task created")] := by
  decide

/-- C4 amended: on create, a request whose due_date parses to an instant
strictly earlier than the current instant is rejected with a validation
error on the due_date field path and no task or history row is created; a
due_date that parses to an instant equal to the current instant (or later)
is accepted and the task is created. -/
theorem createTask_past_due_rejected :
    ∀ (db : DB) (body data : JSObj) (now t : Int),
      parseCreateBody body = Except.ok data →
      jsNewDate (data.get "due_date") = some t →
      ((t < now →
        createTaskEndpoint db body now
          = (db, CreateResult.pastDue [⟨"due_date", "Due date must be in the future"⟩]))
        ∧ (now ≤ t →
          ∃ (db2 : DB) (task : JSObj),
            createTaskEndpoint db body now = (db2, CreateResult.created task)
            ∧ db2.tasks.length = db.tasks.length + 1)) := by
  intro db body data now t hp hparse
  obtain ⟨⟨s, hs, hsne⟩, hdd⟩ := parseCreateBody_due body data hp
  have htr : jsTruthy (data.get "due_date") = true := by
    rw [hdd, hs]
    exact jsTruthy_str_of_ne hsne
  constructor
  · intro hlt
    have hguard : (jsTruthy (data.get "due_date")
        && jsDateLt (jsNewDate (data.get "due_date")) now) = true := by
      rw [htr, hparse]
      simp [jsDateLt, hlt]
    simp [createTaskEndpoint, hp, hguard]
  · intro hge
    have hguard : (jsTruthy (data.get "due_date")
        && jsDateLt (jsNewDate (data.get "due_date")) now) = false := by
      rw [htr, hparse]
      simp [jsDateLt]
      omega
    refine ⟨(TaskModel.create db
        (data ++ [("created_at", JSVal.str (toISOString now)),
          ("updated_at", JSVal.str (toISOString now))])).1,
      data ++ [("created_at", JSVal.str (toISOString now)),
        ("updated_at", JSVal.str (toISOString now))], ?_, ?_⟩
    · simp [createTaskEndpoint, hp, hguard]
    · simp [TaskModel.create]

/-- C4 witness: a strictly past due_date is rejected with nothing created,
at a concrete request. -/
theorem createTask_past_due_rejected_witness :
    createTaskEndpoint ⟨[], []⟩
        [("title", JSVal.str "Report"), ("due_date", JSVal.str "2020-01-01T00:00:00Z")]
        1735689600000
      = (⟨[], []⟩, CreateResult.pastDue [⟨"due_date", "Due date must be in the future"⟩]) :=
  (createTask_past_due_rejected ⟨[], []⟩ _
      [("title", JSVal.str "Report"), ("status", JSVal.str "PENDING"),
        ("due_date", JSVal.str "2020-01-01T00:00:00Z")]
      1735689600000 1577836800000 (by rfl) (by decide)).1 (by decide)

/-- C5: on update, a past due_date in the payload is rejected only when it
differs (by strict string comparison) from the stored due_date; whenever
the payload due_date equals the stored one, the future-date rule does not
apply and the update proceeds even for a past due_date. -/
theorem updateTask_unchanged_due_not_revalidated :
    ∀ (db : DB) (id : Nat) (body : JSObj) (now : Int) (existing allowed : JSObj),
      findById db id = some existing →
      parseUpdateBody body = Except.ok allowed →
      ((allowed.get "due_date" = existing.get "due_date" →
        ∃ (db2 : DB) (task : JSObj) (cs : Option String),
          updateTaskEndpoint db id body now = (db2, UpdateResult.ok task cs))
        ∧ (∀ (db2 : DB) (e : List FieldError),
          updateTaskEndpoint db id body now = (db2, UpdateResult.pastDue e) →
            allowed.get "due_date" ≠ existing.get "due_date"
            ∧ jsDateLt (jsNewDate (allowed.get "due_date")) now = true)) := by
  intro db id body now existing allowed h1 h2
  constructor
  · intro heq
    have hguard : (jsTruthy (allowed.get "due_date")
        && !(allowed.get "due_date" == existing.get "due_date")
        && jsDateLt (jsNewDate (allowed.get "due_date")) now) = false := by
      rw [heq]
      simp
    refine ⟨TaskModel.update db id
        (existing ++ allowed ++ [("updated_at", JSVal.str (toISOString now))])
        (if (generateChangeLog existing allowed).isEmpty then none
          else some (String.intercalate "\n" (generateChangeLog existing allowed))),
      existing ++ allowed ++ [("updated_at", JSVal.str (toISOString now))],
      (if (generateChangeLog existing allowed).isEmpty then none
        else some (String.intercalate "\n" (generateChangeLog existing allowed))), ?_⟩
    simp [updateTaskEndpoint, h1, h2, hguard]
  · intro db2 e hpd
    simp only [updateTaskEndpoint, h1, h2] at hpd
    by_cases hguard : (jsTruthy (allowed.get "due_date")
        && !(allowed.get "due_date" == existing.get "due_date")
        && jsDateLt (jsNewDate (allowed.get "due_date")) now) = true
    · have hand := Bool.and_eq_true_iff.mp hguard
      have hand2 := Bool.and_eq_true_iff.mp hand.1
      constructor
      · intro hcontra
        rw [hcontra] at hand2
        simp at hand2
      · exact hand.2
    · rw [if_neg hguard] at hpd
      exact absurd (congrArg Prod.snd hpd) (by simp)

/-- C5 witness: re-submitting the stored past due_date together with a
status change succeeds instead of being rejected. -/
theorem updateTask_unchanged_due_not_revalidated_witness :
    ∃ (db2 : DB) (task : JSObj) (cs : Option String),
      updateTaskEndpoint
          ⟨[(1, [("title", JSVal.str "T"), ("status", JSVal.str "PENDING"),
              ("due_date", JSVal.str "2020-01-01T00:00:00Z")])],
            [(1, "Task created")]⟩
          1
          [("status", JSVal.str "COMPLETED"), ("due_date", JSVal.str "2020-01-01T00:00:00Z")]
          1735689600000
        = (db2, UpdateResult.ok task cs) :=
  (updateTask_unchanged_due_not_revalidated _ 1 _ 1735689600000
      [("title", JSVal.str "T"), ("status", JSVal.str "PENDING"),
        ("due_date", JSVal.str "2020-01-01T00:00:00Z")]
      [("status", JSVal.str "COMPLETED"), ("due_date", JSVal.str "2020-01-01T00:00:00Z")]
      (by rfl) (by rfl)).1 (by decide)

/-- C1: for every update of an existing task whose diff against the
validated payload is empty, the endpoint hands a null change summary to the
store and the task history is unchanged by the update (the store writes no
HistoryEntry for a null summary). -/
theorem updateTask_empty_diff_preserves_history :
    ∀ (db : DB) (id : Nat) (body : JSObj) (now : Int) (existing allowed : JSObj),
      findById db id = some existing →
      parseUpdateBody body = Except.ok allowed →
      generateChangeLog existing allowed = [] →
      ((updateTaskEndpoint db id body now).1.history = db.history
        ∧ ∀ (db2 : DB) (task : JSObj) (cs : Option String),
          updateTaskEndpoint db id body now = (db2, UpdateResult.ok task cs) → cs = none) := by
  intro db id body now existing allowed h1 h2 h3
  simp only [updateTaskEndpoint, h1, h2]
  by_cases hguard : (jsTruthy (allowed.get "due_date")
      && !(allowed.get "due_date" == existing.get "due_date")
      && jsDateLt (jsNewDate (allowed.get "due_date")) now) = true
  · rw [if_pos hguard]
    refine ⟨rfl, ?_⟩
    intro db2 task cs hcontra
    exact absurd (congrArg Prod.snd hcontra) (by simp)
  · rw [if_neg hguard]
    constructor
    · simp [h3, TaskModel.update]
    · intro db2 task cs hok
      have := congrArg Prod.snd hok
      simp only at this
      rw [h3] at this
      simp at this
      exact this.2.symm

/-- C1 witness: re-submitting the stored status writes no history row. -/
theorem updateTask_empty_diff_preserves_history_witness :
    (updateTaskEndpoint
        ⟨[(1, [("title", JSVal.str "T"), ("status", JSVal.str "PENDING"),
            ("due_date", JSVal.str "2020-01-01T00:00:00Z")])],
          [(1, "Task created")]⟩
        1 [("status", JSVal.str "PENDING")] 1735689600000).1.history
      = [(1, "Task created")] :=
  (updateTask_empty_diff_preserves_history _ 1 _ 1735689600000
      [("title", JSVal.str "T"), ("status", JSVal.str "PENDING"),
        ("due_date", JSVal.str "2020-01-01T00:00:00Z")]
      [("status", JSVal.str "PENDING")]
      (by rfl) (by rfl) (by decide)).1
